import Mathlib

/-!
Verification of the request-router / process-supervisor core of the
pseudo-url-localhost ("Nextium") repository.

The definitions below are a shallow embedding of the JavaScript source:

* `src/src/process-manager.js` — process supervisor (`startDevServer`,
  `stopDevServer`, `updateLastAccess`, `checkIdleProcesses`,
  `findAvailablePort`, `allocatePort`);
* `src/src/proxy.js` — request router (`checkRateLimit`,
  `createRequestHandler`, `showLoadingPage`).

OS interaction (bind probes, process liveness, spawn outcomes, readiness
detection, signal delivery latencies) is modelled by explicit oracles and
environments; timestamps are milliseconds as `Nat`.  Each embedded
definition cites the source lines it translates.
-/

/-- Process states, from `PROCESS_STATE` in src/src/process-manager.js lines 14-20. -/
inductive PState
  | starting
  | running
  | stopping
  | stopped
  | manual
deriving DecidableEq

/-- Record mode: `"managed"` or `"manual"` (process-manager.js line 390). -/
inductive PMode
  | managed
  | manual
deriving DecidableEq

/-- The fields of an in-memory process record (process-manager.js lines 384-394)
that the verified claims touch.  `lastAccess` is a millisecond timestamp. -/
structure ProcessRecord where
  pid : Nat
  port : Nat
  state : PState
  mode : PMode
  lastAccess : Nat
deriving DecidableEq

/-- The in-memory `runningProcesses` map (process-manager.js line 11), as an
association list with at most one entry per domain. -/
abbrev Table := List (String × ProcessRecord)

/-- Lookup, mirroring `runningProcesses.get(domain)`. -/
def Table.find : Table → String → Option ProcessRecord
  | [], _ => none
  | (d, r) :: rest, dom => if d = dom then some r else Table.find rest dom

/-- Insert-or-replace, mirroring `runningProcesses.set(domain, info)`. -/
def Table.set : Table → String → ProcessRecord → Table
  | [], dom, r => [(dom, r)]
  | (d0, r0) :: rest, dom, r =>
    if d0 = dom then (dom, r) :: rest else (d0, r0) :: Table.set rest dom r

/-- Deletion, mirroring `runningProcesses.delete(domain)`.  A JS `Map` holds at
most one entry per key, so removing every association-list entry for the key is
the faithful finite-map semantics. -/
def Table.erase : Table → String → Table
  | [], _ => []
  | (d0, r0) :: rest, dom =>
    if d0 = dom then Table.erase rest dom else (d0, r0) :: Table.erase rest dom

/-! ## Rate limiter (proxy.js lines 46-70) -/

/-- The per-minute request threshold (`limit`, proxy.js line 49). -/
def rateLimitMax : Nat := 1000

/-- The fixed window length in ms (proxy.js lines 52 and 59). -/
def rateWindowMs : Nat := 60000

/-- One entry of the `requestCounts` map (proxy.js lines 23, 52). -/
structure RateWindow where
  count : Nat
  resetAt : Nat
deriving DecidableEq

/-- `checkRateLimit` (proxy.js lines 46-70) for one hostname: given the current
time and that hostname's stored window (`none` when the map has no entry),
returns the admission decision and the window stored afterwards.

* no entry: store `{count 1, resetAt now+60000}` and admit;
* `now > resetAt`: reset to `{count 1, resetAt now+60000}` and admit;
* otherwise: increment `count` and admit exactly when the incremented
  count is `≤ limit` (lines 63-69 increment before the comparison). -/
def checkRateLimit (now : Nat) (w : Option RateWindow) : Bool × RateWindow :=
  match w with
  | none => (true, { count := 1, resetAt := now + rateWindowMs })
  | some r =>
    if r.resetAt < now then
      (true, { count := 1, resetAt := now + rateWindowMs })
    else
      (decide (r.count + 1 ≤ rateLimitMax), { count := r.count + 1, resetAt := r.resetAt })

/-- C2 counterexample: at `now = 100`, a hostname whose current window holds
`count = 1000 = limit` and has not expired (`resetAt = 60000`) is rejected,
yet the stored count is still incremented to 1001 — refuting the claim's
"rejects the request without incrementing further side effects"
(proxy.js line 63 increments `record.count` before the limit test). -/
theorem c2_counterexample :
    (checkRateLimit 100 (some { count := 1000, resetAt := 60000 })).1 = false ∧
    (checkRateLimit 100 (some { count := 1000, resetAt := 60000 })).2.count = 1001 := by
  constructor <;> rfl

/-- C2 (amended): on each request, if no window exists or the current window has
expired (window length 60000 ms), the limiter admits and stores a fresh window
with count 1; otherwise it increments the stored count and admits exactly while
the incremented count is at most the threshold 1000 (so the count keeps being
incremented even on rejected requests); a request issued after the window
elapses is admitted again with a fresh count of 1. -/
theorem c2_rate_limiter (now : Nat) :
    checkRateLimit now none = (true, { count := 1, resetAt := now + rateWindowMs }) ∧
    (∀ r : RateWindow, r.resetAt < now →
      checkRateLimit now (some r) = (true, { count := 1, resetAt := now + rateWindowMs })) ∧
    (∀ r : RateWindow, ¬ r.resetAt < now →
      checkRateLimit now (some r) =
        (decide (r.count + 1 ≤ rateLimitMax), { count := r.count + 1, resetAt := r.resetAt })) := by
  refine ⟨rfl, ?_, ?_⟩
  · intro r h
    simp [checkRateLimit, h]
  · intro r h
    simp [checkRateLimit, h]

/-- C2 witness: the three clauses of `c2_rate_limiter` at `now = 100000`,
with an expired window `{count 5, resetAt 50000}` (admitted afresh with count 1)
and a live window at the threshold `{count 1000, resetAt 200000}` (rejected,
count stored as 1001). -/
theorem c2_rate_limiter_witness :
    checkRateLimit 100000 none = (true, { count := 1, resetAt := 160000 }) ∧
    checkRateLimit 100000 (some { count := 5, resetAt := 50000 }) =
      (true, { count := 1, resetAt := 160000 }) ∧
    checkRateLimit 100000 (some { count := 1000, resetAt := 200000 }) =
      (false, { count := 1001, resetAt := 200000 }) := by
  have h := c2_rate_limiter 100000
  refine ⟨h.1, ?_, ?_⟩
  · have := h.2.1 { count := 5, resetAt := 50000 } (by decide)
    simpa [rateWindowMs] using this
  · have := h.2.2 { count := 1000, resetAt := 200000 } (by decide)
    simpa [rateLimitMax] using this

/-! ## Port allocator (process-manager.js lines 71-123) -/

/-- Scan ports `p, p+1, ...` for `fuel` candidates, returning the first one the
bind probe `avail` reports free.  This is the loop body of `findAvailablePort`
(process-manager.js lines 95-99); `avail` abstracts `isPortAvailable`
(lines 71-86, a throwaway `net` listener bind). -/
def scanPorts (avail : Nat → Bool) : Nat → Nat → Option Nat
  | _, 0 => none
  | p, fuel + 1 => if avail p then some p else scanPorts avail (p + 1) fuel

/-- `findAvailablePort(startPort, endPort)` (process-manager.js lines 94-101):
scan the inclusive range sequentially, returning the first free port, or
`none` when the whole range is occupied. -/
def findAvailablePort (avail : Nat → Bool) (startPort endPort : Nat) : Option Nat :=
  scanPorts avail startPort (endPort + 1 - startPort)

/-- Port specification of a project: `"auto"` or a fixed number
(project config `port`, validated in project-config). -/
inductive PortSpec
  | auto
  | fixed (p : Nat)
deriving DecidableEq

/-- Readiness failures surfaced by `waitForReady` (process-manager.js
lines 132-261): the 30s timeout, or a process exit before any ready signature. -/
inductive ReadyError
  | timeoutWaiting
  | exitedBeforeReady (code : Int)
deriving DecidableEq

/-- Errors thrown by the start path (process-manager.js lines 269-437).
`failedToStart` is the wrapping error of the catch block (lines 431-436),
carrying the underlying cause as `originalError`. -/
inductive StartError
  | projectNotFound
  | alreadyActive (s : PState)
  | noPortsAvailable
  | portInUse (p : Nat)
  | spawnFailed
  | failedToStart (cause : ReadyError)
deriving DecidableEq

/-- `allocatePort(config)` (process-manager.js lines 108-123): for an `auto`
spec, delegate to `findAvailablePort` over 3000-3999 and fail with the
no-available-ports error when it returns nothing; for a fixed port, apply the
same bind probe to that single port and fail with the port-in-use error when
occupied, otherwise return exactly the requested port. -/
def allocatePort (avail : Nat → Bool) (spec : PortSpec) : Except StartError Nat :=
  match spec with
  | .auto =>
    match findAvailablePort avail 3000 3999 with
    | some p => .ok p
    | none => .error .noPortsAvailable
  | .fixed p => if avail p then .ok p else .error (.portInUse p)

theorem scanPorts_eq_some (avail : Nat → Bool) :
    ∀ fuel p q, scanPorts avail p fuel = some q →
      avail q = true ∧ p ≤ q ∧ q < p + fuel ∧ ∀ m, p ≤ m → m < q → avail m = false := by
  intro fuel
  induction fuel with
  | zero => intro p q h; simp [scanPorts] at h
  | succ n ih =>
    intro p q h
    by_cases hp : avail p
    · simp [scanPorts, hp] at h
      subst h
      refine ⟨hp, le_refl _, by omega, ?_⟩
      intro m hm hm2; omega
    · simp [scanPorts, hp] at h
      obtain ⟨hq, hpq, hlt, hmin⟩ := ih (p + 1) q h
      refine ⟨hq, by omega, by omega, ?_⟩
      intro m hm hm2
      rcases Nat.eq_or_lt_of_le hm with rfl | hlt2
      · simpa using hp
      · exact hmin m (by omega) hm2

theorem scanPorts_eq_none (avail : Nat → Bool) :
    ∀ fuel p, scanPorts avail p fuel = none → ∀ m, p ≤ m → m < p + fuel → avail m = false := by
  intro fuel
  induction fuel with
  | zero => intro p _ m hm hm2; omega
  | succ n ih =>
    intro p h m hm hm2
    by_cases hp : avail p
    · simp [scanPorts, hp] at h
    · simp [scanPorts, hp] at h
      rcases Nat.eq_or_lt_of_le hm with rfl | hlt
      · simpa using hp
      · exact ih (p + 1) h m (by omega) (by omega)

/-- C8: port allocation.  For an `auto` spec: any returned port lies in
3000-3999, passes the bind probe (never an occupied port), and is the first
free port of the sequential scan; when the whole range is occupied the result
is the no-ports failure.  For a fixed spec: a free port is returned exactly as
requested, an occupied one fails with the port-in-use error. -/
theorem c8_port_allocation (avail : Nat → Bool) :
    (∀ p, allocatePort avail .auto = .ok p →
      3000 ≤ p ∧ p ≤ 3999 ∧ avail p = true ∧ ∀ m, 3000 ≤ m → m < p → avail m = false) ∧
    ((∀ m, 3000 ≤ m → m ≤ 3999 → avail m = false) →
      allocatePort avail .auto = .error .noPortsAvailable) ∧
    (∀ p, avail p = true → allocatePort avail (.fixed p) = .ok p) ∧
    (∀ p, avail p = false → allocatePort avail (.fixed p) = .error (.portInUse p)) := by
  refine ⟨?_, ?_, ?_, ?_⟩
  · intro p h
    have hscan : scanPorts avail 3000 1000 = some p := by
      simp only [allocatePort, findAvailablePort] at h
      rcases hs : scanPorts avail 3000 (3999 + 1 - 3000) with _ | q
      · rw [hs] at h; simp at h
      · rw [hs] at h
        simp at h
        subst h
        rfl
    obtain ⟨h1, h2, h3, h4⟩ := scanPorts_eq_some avail 1000 3000 p hscan
    exact ⟨h2, by omega, h1, h4⟩
  · intro hall
    have hscan : scanPorts avail 3000 1000 = none := by
      rcases hs : scanPorts avail 3000 1000 with _ | q
      · rfl
      · obtain ⟨h1, h2, h3, _⟩ := scanPorts_eq_some avail 1000 3000 q hs
        have := hall q h2 (by omega)
        rw [this] at h1; exact absurd h1 (by simp)
    simp [allocatePort, findAvailablePort]
    rw [hscan]
  · intro p hp
    simp [allocatePort, hp]
  · intro p hp
    simp [allocatePort, hp]

/-- C8 witness: with only port 3001 free, auto allocation returns 3001 (in
range, free, and ports before it occupied); with every port occupied, auto
allocation fails with the no-ports error; a fixed free port 8080 is returned
as requested; a fixed occupied port 8080 fails with the port-in-use error. -/
theorem c8_port_allocation_witness :
    allocatePort (fun q => decide (q = 3001)) .auto = .ok 3001 ∧
    allocatePort (fun _ => false) .auto = .error .noPortsAvailable ∧
    allocatePort (fun _ => true) (.fixed 8080) = .ok 8080 ∧
    allocatePort (fun _ => false) (.fixed 8080) = .error (.portInUse 8080) := by
  refine ⟨?_, ?_, ?_, ?_⟩
  · rfl
  · exact (c8_port_allocation (fun _ => false)).2.1 (fun m _ _ => rfl)
  · exact (c8_port_allocation (fun _ => true)).2.2.1 8080 rfl
  · exact (c8_port_allocation (fun _ => false)).2.2.2 8080 rfl

/-! ## Process supervisor: start (process-manager.js lines 269-437) -/

/-- Signals sent with `childProcess.kill` / `process.kill`. -/
inductive Signal
  | sigterm
  | sigkill
deriving DecidableEq

/-- Observable side effects of one supervisor operation, in program order. -/
inductive Eff
  | portAllocated (p : Nat)
  | spawned (pid : Nat) (port : Nat)
  | killed (pid : Nat) (sig : Signal)
deriving DecidableEq

/-- Project data the supervisor reads (registry entry `config`):
the port spec and `config.idle?.timeoutMs` (absent when `idle` or
`timeoutMs` is missing). -/
structure Project where
  portSpec : PortSpec
  idleTimeoutMs : Option Nat
deriving DecidableEq

/-- Outcome of `waitForReady` for one start attempt (process-manager.js
lines 132-261 and 405): the server became ready, the 30000 ms readiness
timeout fired, or the process exited with some code before becoming ready. -/
inductive ReadyOutcome
  | ready
  | timedOut
  | exited (code : Int)
deriving DecidableEq

/-- Environment of one `startDevServer` call: the bind probe used by port
allocation, whether the spawn produced a live child with a valid pid
(lines 307-381 collapse spawn exceptions, immediate `error` events and a
missing pid into one failure), the child's pid, and the readiness outcome. -/
structure StartEnv where
  avail : Nat → Bool
  spawnOk : Bool
  pid : Nat
  readiness : ReadyOutcome

/-- The already-running guard of `startDevServer` (process-manager.js
lines 277-282): `some s` when a record for the domain exists in a non-STOPPED
state `s` (the call throws "already s"), `none` when the start may proceed. -/
def startGuard (table : Table) (domain : String) : Option PState :=
  match table.find domain with
  | some existing => if existing.state = .stopped then none else some existing.state
  | none => none

/-- `startDevServer(domain, options)` (process-manager.js lines 269-437),
returning the call result, the process table after the call has settled, and
the list of side effects in program order.

Order of operations in the source: project lookup (272), the already-running
guard (277-282), `allocatePort` (285), spawn plus pid check (309-381), insert
of the STARTING record (384-396), `waitForReady` (405), then either the
transition to RUNNING/MANUAL (412-414) or the catch block (420-437): kill
the child with SIGTERM when `childProcess.killed` is still false (which it is
in both failure modes, since `killed` only records an earlier `kill()` call),
delete the record, and rethrow a wrapping error carrying the cause. -/
def startDevServer (table : Table) (domain : String) (project : Option Project)
    (manualOpt : Bool) (now : Nat) (env : StartEnv) :
    Except StartError ProcessRecord × Table × List Eff :=
  match project with
  | none => (.error .projectNotFound, table, [])
  | some proj =>
    match startGuard table domain with
    | some s => (.error (.alreadyActive s), table, [])
    | none =>
      match allocatePort env.avail proj.portSpec with
      | .error e => (.error e, table, [])
      | .ok port =>
        if env.spawnOk = false ∨ env.pid = 0 then
          (.error .spawnFailed, table, [.portAllocated port])
        else
          let rec0 : ProcessRecord :=
            { pid := env.pid, port := port, state := .starting,
              mode := if manualOpt then .manual else .managed, lastAccess := now }
          let table1 := table.set domain rec0
          match env.readiness with
          | .ready =>
            let final : ProcessRecord :=
              { rec0 with state := if manualOpt then .manual else .running }
            (.ok final, table1.set domain final,
              [.portAllocated port, .spawned env.pid port])
          | .timedOut =>
            (.error (.failedToStart .timeoutWaiting), table1.erase domain,
              [.portAllocated port, .spawned env.pid port, .killed env.pid .sigterm])
          | .exited code =>
            (.error (.failedToStart (.exitedBeforeReady code)), table1.erase domain,
              [.portAllocated port, .spawned env.pid port, .killed env.pid .sigterm])

theorem table_find_set_self (table : Table) (domain : String) (r : ProcessRecord) :
    (table.set domain r).find domain = some r := by
  induction table with
  | nil => simp [Table.set, Table.find]
  | cons e rest ih =>
    by_cases h : e.1 = domain
    · simp [Table.set, Table.find, h]
    · simp [Table.set, Table.find, h, ih]

theorem table_find_erase_self (table : Table) (domain : String) :
    (table.erase domain).find domain = none := by
  induction table with
  | nil => simp [Table.erase, Table.find]
  | cons e rest ih =>
    by_cases h : e.1 = domain
    · simp [Table.erase, h, ih]
    · simp [Table.erase, Table.find, h, ih]

/-- Sample project used by concrete witnesses: auto port, no idle override. -/
def sampleProject : Project := { portSpec := .auto, idleTimeoutMs := none }

/-- Sample running record used by concrete witnesses. -/
def sampleRunning : ProcessRecord :=
  { pid := 7, port := 3000, state := .running, mode := .managed, lastAccess := 0 }

/-- C9: when a record for the domain exists in any state other than STOPPED,
`startDevServer` fails with the already-active error naming that state, before
any port allocation or spawn (empty effect list), and the table — hence the
existing record — is unchanged (process-manager.js lines 277-282 throw before
line 285 allocates and line 309 spawns). -/
theorem c9_already_active (table : Table) (domain : String) (proj : Project)
    (manualOpt : Bool) (now : Nat) (env : StartEnv) (r : ProcessRecord)
    (hfind : table.find domain = some r) (hst : r.state ≠ .stopped) :
    startDevServer table domain (some proj) manualOpt now env =
      (.error (.alreadyActive r.state), table, []) := by
  simp [startDevServer, startGuard, hfind, hst]

/-- C9 witness: starting `"app.local"` while its record is RUNNING fails with
the already-active error, leaves the table unchanged and performs no effects. -/
theorem c9_already_active_witness :
    startDevServer [("app.local", sampleRunning)] "app.local" (some sampleProject) false 5
      { avail := fun _ => true, spawnOk := true, pid := 7, readiness := .ready } =
      (.error (.alreadyActive .running), [("app.local", sampleRunning)], []) := by
  exact c9_already_active _ _ _ _ _ _ sampleRunning rfl (by decide)

/-- C4 counterexample: a start attempt for `"app.local"` that hits the
readiness timeout cleans up by sending SIGTERM — the graceful signal — to the
spawned child (process-manager.js line 424), never SIGKILL; the claim's
"force-terminated" (the forceful kill, which this codebase reserves for
SIGKILL, cf. `stopDevServer` line 459) does not happen. -/
theorem c4_counterexample :
    (startDevServer [] "app.local" (some sampleProject) false 5
      { avail := fun _ => true, spawnOk := true, pid := 7, readiness := .timedOut }).2.2 =
      [.portAllocated 3000, .spawned 7 3000, .killed 7 .sigterm] ∧
    Eff.killed 7 Signal.sigkill ∉
      (startDevServer [] "app.local" (some sampleProject) false 5
        { avail := fun _ => true, spawnOk := true, pid := 7, readiness := .timedOut }).2.2 := by
  constructor
  · rfl
  · decide

/-- C4 (amended): every start attempt that fails readiness — the 30s readiness
timeout or a process exit before becoming ready — sends the spawned process a
SIGTERM (a graceful termination signal, not a forceful kill), removes the
domain's record from the live table so no dangling STARTING record remains,
and surfaces to the caller a wrapped error carrying the underlying cause. -/
theorem c4_failed_start_cleanup (table : Table) (domain : String) (proj : Project)
    (manualOpt : Bool) (now : Nat) (env : StartEnv) (port : Nat) (cause : ReadyError)
    (hguard : startGuard table domain = none)
    (halloc : allocatePort env.avail proj.portSpec = .ok port)
    (hspawn : env.spawnOk = true) (hpid : env.pid ≠ 0)
    (hfail : env.readiness = .timedOut ∧ cause = .timeoutWaiting ∨
      ∃ c, env.readiness = .exited c ∧ cause = .exitedBeforeReady c) :
    (startDevServer table domain (some proj) manualOpt now env).1 =
        .error (.failedToStart cause) ∧
    ((startDevServer table domain (some proj) manualOpt now env).2.1).find domain = none ∧
    (startDevServer table domain (some proj) manualOpt now env).2.2 =
        [.portAllocated port, .spawned env.pid port, .killed env.pid .sigterm] := by
  rcases hfail with ⟨hready, hcause⟩ | ⟨c, hready, hcause⟩ <;>
    subst hcause <;>
    simp [startDevServer, hguard, halloc, hspawn, hpid, hready, table_find_erase_self]

/-- C4 witness: a concrete timed-out start of `"app.local"` (port 3000
allocated, pid 7 spawned) yields the wrapped timeout error, a table with no
record for the domain, and the SIGTERM cleanup kill. -/
theorem c4_failed_start_cleanup_witness :
    (startDevServer [] "app.local" (some sampleProject) false 5
      { avail := fun _ => true, spawnOk := true, pid := 7, readiness := .timedOut }).1 =
        .error (.failedToStart .timeoutWaiting) ∧
    ((startDevServer [] "app.local" (some sampleProject) false 5
      { avail := fun _ => true, spawnOk := true, pid := 7, readiness := .timedOut }).2.1).find
        "app.local" = none ∧
    (startDevServer [] "app.local" (some sampleProject) false 5
      { avail := fun _ => true, spawnOk := true, pid := 7, readiness := .timedOut }).2.2 =
      [.portAllocated 3000, .spawned 7 3000, .killed 7 .sigterm] := by
  exact c4_failed_start_cleanup [] "app.local" sampleProject false 5
    { avail := fun _ => true, spawnOk := true, pid := 7, readiness := .timedOut }
    3000 .timeoutWaiting rfl rfl rfl (by decide) (Or.inl ⟨rfl, rfl⟩)

/-! ## Process supervisor: stop (process-manager.js lines 446-478) -/

/-- The graceful-shutdown grace window in ms (process-manager.js line 471). -/
def stopGraceMs : Nat := 10000

/-- Timing behaviour of the underlying OS process during a stop:
`termExitDelay` is the delay from SIGTERM to the process's exit event when the
process honors SIGTERM (`none` when it ignores the signal), and
`killExitDelay` is the delay from SIGKILL to the exit event (the exit event
always fires on a strictly later tick of the event loop). -/
structure StopEnv where
  termExitDelay : Option Nat
  killExitDelay : Nat
deriving DecidableEq

/-- Observable outcome of one `stopDevServer(domain, force)` call started at
time `t0`, together with what the exit handler installed by `startDevServer`
(process-manager.js lines 337-351) does to the record:

* `returned` — the resolved value of the call (false on the no-op path);
* `resolveAt` — the time at which the returned promise resolves;
* `exitAt` — the time at which the underlying process actually exits
  (`none` when there is no live process to stop);
* `stoppedAt` — the time at which the record's state becomes STOPPED, which
  the exit handler stamps when the exit event fires;
* `killsSent` — the signals sent, each with its send time, in order. -/
structure StopOutcome where
  returned : Bool
  resolveAt : Nat
  exitAt : Option Nat
  stoppedAt : Option Nat
  killsSent : List (Nat × Signal)
deriving DecidableEq

/-- `stopDevServer(domain, force)` (process-manager.js lines 446-478):

* record absent or already STOPPED: return false, touch nothing (lines 449-451);
* `force`: send SIGKILL and resolve `true` immediately (lines 458-462) —
  without waiting for the exit event, which fires `killExitDelay` later;
* graceful: send SIGTERM (line 465); if the process exits within the 10000 ms
  grace window, the exit listener resolves at the exit event (lines 473-476);
  otherwise the timer fires at `t0 + 10000`, sends SIGKILL and resolves
  immediately (lines 468-471), the actual exit following `killExitDelay`
  later (or at `t0 + termExitDelay` if a slow SIGTERM lands first).

In every case the STOPPED transition is performed by the exit handler at the
exit event, never by `stopDevServer` itself; the second component is the table
after the exit event has been processed. -/
def stopDevServer (table : Table) (domain : String) (force : Bool) (t0 : Nat)
    (env : StopEnv) : StopOutcome × Table :=
  match table.find domain with
  | none =>
    ({ returned := false, resolveAt := t0, exitAt := none, stoppedAt := none,
       killsSent := [] }, table)
  | some r =>
    if r.state = .stopped then
      ({ returned := false, resolveAt := t0, exitAt := none, stoppedAt := none,
         killsSent := [] }, table)
    else if force then
      let exitT := t0 + env.killExitDelay
      ({ returned := true, resolveAt := t0, exitAt := some exitT,
         stoppedAt := some exitT, killsSent := [(t0, .sigkill)] },
       table.set domain { r with state := .stopped })
    else
      match env.termExitDelay with
      | some d =>
        if d < stopGraceMs then
          ({ returned := true, resolveAt := t0 + d, exitAt := some (t0 + d),
             stoppedAt := some (t0 + d), killsSent := [(t0, .sigterm)] },
           table.set domain { r with state := .stopped })
        else
          let exitT := min (t0 + d) (t0 + stopGraceMs + env.killExitDelay)
          ({ returned := true, resolveAt := t0 + stopGraceMs, exitAt := some exitT,
             stoppedAt := some exitT,
             killsSent := [(t0, .sigterm), (t0 + stopGraceMs, .sigkill)] },
           table.set domain { r with state := .stopped })
      | none =>
        let exitT := t0 + stopGraceMs + env.killExitDelay
        ({ returned := true, resolveAt := t0 + stopGraceMs, exitAt := some exitT,
           stoppedAt := some exitT,
           killsSent := [(t0, .sigterm), (t0 + stopGraceMs, .sigkill)] },
         table.set domain { r with state := .stopped })

/-- C10: calling stop on a domain whose record is absent or already STOPPED is
a no-op: it returns false (never an error — the model of `stopDevServer` is a
total function and lines 449-451 return before touching anything), sends no
signals, performs no transitions, and leaves the process table unchanged. -/
theorem c10_idempotent_stop (table : Table) (domain : String) (force : Bool)
    (t0 : Nat) (env : StopEnv)
    (h : table.find domain = none ∨
      ∃ r, table.find domain = some r ∧ r.state = .stopped) :
    stopDevServer table domain force t0 env =
      ({ returned := false, resolveAt := t0, exitAt := none, stoppedAt := none,
         killsSent := [] }, table) := by
  rcases h with h | ⟨r, hfind, hst⟩
  · simp [stopDevServer, h]
  · simp [stopDevServer, hfind, hst]

/-- C10 witness: stopping the absent domain `"gone.local"`, and stopping
`"app.local"` whose record is already STOPPED, both return false and leave the
table untouched. -/
theorem c10_idempotent_stop_witness :
    stopDevServer [] "gone.local" false 42 { termExitDelay := none, killExitDelay := 1 } =
      ({ returned := false, resolveAt := 42, exitAt := none, stoppedAt := none,
         killsSent := [] }, []) ∧
    stopDevServer [("app.local", { sampleRunning with state := .stopped })] "app.local"
        true 42 { termExitDelay := none, killExitDelay := 1 } =
      ({ returned := false, resolveAt := 42, exitAt := none, stoppedAt := none,
         killsSent := [] }, [("app.local", { sampleRunning with state := .stopped })]) := by
  constructor
  · exact c10_idempotent_stop [] "gone.local" false 42
      { termExitDelay := none, killExitDelay := 1 } (Or.inl rfl)
  · exact c10_idempotent_stop _ "app.local" true 42
      { termExitDelay := none, killExitDelay := 1 }
      (Or.inr ⟨{ sampleRunning with state := .stopped }, by decide, rfl⟩)

/-- C3 counterexample: force-stopping the live record of `"app.local"` at
`t0 = 0`, with the process's exit event landing one tick later, resolves at
time 0 while the process only exits at time 1 (process-manager.js lines
458-462 resolve immediately after sending SIGKILL) — refuting "resolves only
once the underlying process has actually exited" on the force path. -/
theorem c3_counterexample :
    (stopDevServer [("app.local", sampleRunning)] "app.local" true 0
      { termExitDelay := none, killExitDelay := 1 }).1.resolveAt = 0 ∧
    (stopDevServer [("app.local", sampleRunning)] "app.local" true 0
      { termExitDelay := none, killExitDelay := 1 }).1.exitAt = some 1 := by
  constructor <;> rfl

/-- C3 (amended): for a domain with a live non-STOPPED record, stop returns
true; on the graceful path, when the process exits within the 10s grace
window the call resolves exactly at the actual exit; when the window elapses
it escalates by sending SIGKILL at `t0 + 10000` and resolves at that moment —
immediately after sending the kill, without waiting for the exit event — and
likewise the force path sends SIGKILL and resolves immediately at `t0`; in
every case the record transitions to STOPPED exactly when the process
actually exits (the exit handler performs it), never speculatively. -/
theorem c3_stop_semantics (table : Table) (domain : String) (force : Bool)
    (t0 : Nat) (env : StopEnv) (r : ProcessRecord)
    (hfind : table.find domain = some r) (hst : r.state ≠ .stopped) :
    (stopDevServer table domain force t0 env).1.returned = true ∧
    (stopDevServer table domain force t0 env).1.stoppedAt =
      (stopDevServer table domain force t0 env).1.exitAt ∧
    (force = true →
      (stopDevServer table domain force t0 env).1.killsSent = [(t0, .sigkill)] ∧
      (stopDevServer table domain force t0 env).1.resolveAt = t0) ∧
    (∀ d, force = false → env.termExitDelay = some d → d < stopGraceMs →
      (stopDevServer table domain force t0 env).1.killsSent = [(t0, .sigterm)] ∧
      (stopDevServer table domain force t0 env).1.resolveAt = t0 + d ∧
      (stopDevServer table domain force t0 env).1.exitAt = some (t0 + d)) ∧
    (force = false → (env.termExitDelay = none ∨ ∃ d, env.termExitDelay = some d ∧
        stopGraceMs ≤ d) →
      (stopDevServer table domain force t0 env).1.killsSent =
        [(t0, .sigterm), (t0 + stopGraceMs, .sigkill)] ∧
      (stopDevServer table domain force t0 env).1.resolveAt = t0 + stopGraceMs) := by
  refine ⟨?_, ?_, ?_, ?_, ?_⟩
  · rcases hf : force with _ | _
    · rcases ht : env.termExitDelay with _ | d
      · simp [stopDevServer, hfind, hst, hf, ht]
      · by_cases hd : d < stopGraceMs <;>
          simp [stopDevServer, hfind, hst, hf, ht, hd]
    · simp [stopDevServer, hfind, hst, hf]
  · rcases hf : force with _ | _
    · rcases ht : env.termExitDelay with _ | d
      · simp [stopDevServer, hfind, hst, hf, ht]
      · by_cases hd : d < stopGraceMs <;>
          simp [stopDevServer, hfind, hst, hf, ht, hd]
    · simp [stopDevServer, hfind, hst, hf]
  · intro hf
    subst hf
    simp [stopDevServer, hfind, hst]
  · intro d hf ht hd
    subst hf
    simp [stopDevServer, hfind, hst, ht, hd]
  · intro hf ht
    subst hf
    rcases ht with ht | ⟨d, ht, hd⟩
    · simp [stopDevServer, hfind, hst, ht]
    · simp [stopDevServer, hfind, hst, ht, Nat.not_lt_of_le hd]

/-- C3 witness: stopping the live `"app.local"` record gracefully at `t0 = 0`
with the process honoring SIGTERM after 500 ms resolves at 500 = the actual
exit, stamps STOPPED at 500, and sends only SIGTERM; the same record stopped
gracefully when the process ignores SIGTERM escalates to SIGKILL at 10000 and
resolves there; force-stopping resolves at 0 having sent only SIGKILL. -/
theorem c3_stop_semantics_witness :
    (stopDevServer [("app.local", sampleRunning)] "app.local" false 0
      { termExitDelay := some 500, killExitDelay := 1 }).1.resolveAt = 500 ∧
    (stopDevServer [("app.local", sampleRunning)] "app.local" false 0
      { termExitDelay := some 500, killExitDelay := 1 }).1.exitAt = some 500 ∧
    (stopDevServer [("app.local", sampleRunning)] "app.local" false 0
      { termExitDelay := some 500, killExitDelay := 1 }).1.stoppedAt = some 500 ∧
    (stopDevServer [("app.local", sampleRunning)] "app.local" false 0
      { termExitDelay := none, killExitDelay := 1 }).1.killsSent =
      [(0, .sigterm), (10000, .sigkill)] ∧
    (stopDevServer [("app.local", sampleRunning)] "app.local" true 0
      { termExitDelay := none, killExitDelay := 1 }).1.resolveAt = 0 := by
  have h1 := c3_stop_semantics [("app.local", sampleRunning)] "app.local" false 0
    { termExitDelay := some 500, killExitDelay := 1 } sampleRunning (by decide) (by decide)
  have h2 := c3_stop_semantics [("app.local", sampleRunning)] "app.local" false 0
    { termExitDelay := none, killExitDelay := 1 } sampleRunning (by decide) (by decide)
  have h3 := c3_stop_semantics [("app.local", sampleRunning)] "app.local" true 0
    { termExitDelay := none, killExitDelay := 1 } sampleRunning (by decide) (by decide)
  have hq := h1.2.2.2.1 500 rfl rfl (by decide)
  refine ⟨hq.2.1, hq.2.2, ?_, (h2.2.2.2.2 rfl (Or.inl rfl)).1, (h3.2.2.1 rfl).2⟩
  have := h1.2.1
  rw [hq.2.2] at this
  exact this

/-! ## Request router (proxy.js lines 194-462) -/

/-- `updateLastAccess(domain)` (process-manager.js lines 499-506): bump the
record's `lastAccess` to the current time; no state change; no-op when the
domain has no record. -/
def updateLastAccess (table : Table) (domain : String) (now : Nat) : Table :=
  match table.find domain with
  | some r => table.set domain { r with lastAccess := now }
  | none => table

/-- The response pages the handler can emit (proxy.js lines 194-252 and the
html bodies at 265-275, 346-357, 373-385, 432-459), plus the act of proxying
the request through to the backend at `127.0.0.1:port` (lines 388-407). -/
inductive RsEvent
  | loadingPage
  | tooManyPage
  | startFailedPage
  | noPortPage
  | notFoundPage
  | proxiedTo (port : Nat)
deriving DecidableEq

/-- What the handler did to the HTTP response object: the `(status, page)`
writes attempted in order.  A response is complete after its first
`writeHead`/`end` pair, so the client receives only the first element; any
later write is an attempt to write after the response has ended. -/
structure HandlerOutcome where
  sent : List (Nat × RsEvent)
  startTriggered : Bool
deriving DecidableEq

/-- The response the client actually receives: the first completed write. -/
def HandlerOutcome.received (o : HandlerOutcome) : Option (Nat × RsEvent) :=
  o.sent.head?

/-- Whether some write was attempted after the response had already ended. -/
def HandlerOutcome.writeAfterEnd (o : HandlerOutcome) : Bool :=
  decide (1 < o.sent.length)

/-- Environment of one routed request for a registered project domain:
the admission decision of `checkRateLimit` for this hostname, the OS liveness
probe (`process.kill(pid, 0)` succeeding, proxy.js line 298), and the result
of the `startDevServer` call should the handler trigger one (line 335). -/
structure RouteEnv where
  rateAdmit : Bool
  alive : Nat → Bool
  startResult : Except StartError ProcessRecord

/-- The liveness-checked process info of proxy.js lines 284-317: the stored
record, except that a record whose recorded pid fails the OS liveness probe is
treated as absent (`processInfo = null`, line 315).  A record without a pid
(pid 0 here, falsy in the source) skips the probe. -/
def effectiveInfo (table : Table) (hostname : String) (alive : Nat → Bool) :
    Option ProcessRecord :=
  match table.find hostname with
  | some r => if r.pid ≠ 0 ∧ alive r.pid = false then none else some r
  | none => none

/-- The managed-project branch of `createRequestHandler` (proxy.js lines
262-407), for a request whose hostname is a registered project domain:

* rate-limit rejection: a 429 page (lines 264-277);
* record absent (including a dead pid) or in state STOPPED or STOPPING:
  serve the auto-refreshing loading page immediately (line 331, a complete
  200 response), then await `startDevServer` (line 335); on failure the catch
  block attempts a 503 page (lines 346-357) on the already-ended response;
* any other state (RUNNING, MANUAL — also STARTING): `updateLastAccess`
  (line 364), then a 503 page if the record has no port (lines 368-386),
  otherwise proxy the request to `127.0.0.1:<port>` (lines 388-407).

The supervisor-side table effects of a triggered start are those of
`startDevServer`; the second component here is the router's own table update. -/
def handleProjectRequest (table : Table) (hostname : String) (now : Nat)
    (env : RouteEnv) : HandlerOutcome × Table :=
  if env.rateAdmit = false then
    ({ sent := [(429, .tooManyPage)], startTriggered := false }, table)
  else
    match effectiveInfo table hostname env.alive with
    | none =>
      match env.startResult with
      | .ok _ => ({ sent := [(200, .loadingPage)], startTriggered := true }, table)
      | .error _ =>
        ({ sent := [(200, .loadingPage), (503, .startFailedPage)],
           startTriggered := true }, table)
    | some r =>
      if r.state = .stopped ∨ r.state = .stopping then
        match env.startResult with
        | .ok _ => ({ sent := [(200, .loadingPage)], startTriggered := true }, table)
        | .error _ =>
          ({ sent := [(200, .loadingPage), (503, .startFailedPage)],
             startTriggered := true }, table)
      else
        let table1 := updateLastAccess table hostname now
        if r.port = 0 then
          ({ sent := [(503, .noPortPage)], startTriggered := false }, table1)
        else
          ({ sent := [(200, .proxiedTo r.port)], startTriggered := false }, table1)

/-- C5: for a rate-admitted request to a managed project domain — when the
record is absent (in particular whenever the recorded pid fails the OS
liveness probe) or in state STOPPED or STOPPING, the handler triggers a start
and the client immediately receives the auto-refreshing interim page; the
triggering request never carries the proxied response; when the record is
RUNNING or MANUAL (with its recorded pid alive and a port recorded), the
handler bumps `lastAccess` via `updateLastAccess` and proxies the request
through to `127.0.0.1:<port>` without triggering a start. -/
theorem c5_router_dispatch (table : Table) (hostname : String) (now : Nat)
    (env : RouteEnv) (hrate : env.rateAdmit = true) :
    (∀ r, table.find hostname = some r → r.pid ≠ 0 → env.alive r.pid = false →
      effectiveInfo table hostname env.alive = none) ∧
    (effectiveInfo table hostname env.alive = none ∨
      (∃ r, effectiveInfo table hostname env.alive = some r ∧
        (r.state = .stopped ∨ r.state = .stopping)) →
      (handleProjectRequest table hostname now env).1.received = some (200, .loadingPage) ∧
      (handleProjectRequest table hostname now env).1.startTriggered = true ∧
      ∀ p, (200, RsEvent.proxiedTo p) ∉ (handleProjectRequest table hostname now env).1.sent) ∧
    (∀ r, effectiveInfo table hostname env.alive = some r →
      (r.state = .running ∨ r.state = .manual) → r.port ≠ 0 →
      (handleProjectRequest table hostname now env).1.sent = [(200, .proxiedTo r.port)] ∧
      (handleProjectRequest table hostname now env).1.startTriggered = false ∧
      (handleProjectRequest table hostname now env).2 =
        updateLastAccess table hostname now) := by
  refine ⟨?_, ?_, ?_⟩
  · intro r hfind hpid halive
    simp [effectiveInfo, hfind, hpid, halive]
  · intro h
    rcases h with h | ⟨r, hinfo, hst⟩
    · rcases hs : env.startResult with _ | _ <;>
        simp [handleProjectRequest, hrate, h, hs, HandlerOutcome.received]
    · have hst2 : (r.state = .stopped ∨ r.state = .stopping) = True := by
        simp [hst]
      rcases hs : env.startResult with _ | _ <;>
        simp [handleProjectRequest, hrate, hinfo, hst2, hs, HandlerOutcome.received]
  · intro r hinfo hst hport
    have hst2 : ¬ (r.state = .stopped ∨ r.state = .stopping) := by
      rcases hst with h | h <;> simp [h]
    simp [handleProjectRequest, hrate, hinfo, hst2, hport]

/-- C5 witness: with `"app.local"` RUNNING on port 3000 and its pid alive, a
request is proxied to port 3000 with `lastAccess` bumped; with the table
empty, the same request receives the loading page and triggers a start; and a
record whose pid fails the liveness probe is treated as absent. -/
theorem c5_router_dispatch_witness :
    effectiveInfo [("app.local", sampleRunning)] "app.local" (fun _ => false) = none ∧
    (handleProjectRequest [] "app.local" 9
        { rateAdmit := true, alive := fun _ => true,
          startResult := .ok sampleRunning }).1.received = some (200, .loadingPage) ∧
    (handleProjectRequest [("app.local", sampleRunning)] "app.local" 9
        { rateAdmit := true, alive := fun _ => true,
          startResult := .ok sampleRunning }).1.sent = [(200, .proxiedTo 3000)] ∧
    (handleProjectRequest [("app.local", sampleRunning)] "app.local" 9
        { rateAdmit := true, alive := fun _ => true,
          startResult := .ok sampleRunning }).2 =
      updateLastAccess [("app.local", sampleRunning)] "app.local" 9 := by
  have hdead := c5_router_dispatch [("app.local", sampleRunning)] "app.local" 9
    { rateAdmit := true, alive := fun _ => false, startResult := .ok sampleRunning } rfl
  have habsent := c5_router_dispatch [] "app.local" 9
    { rateAdmit := true, alive := fun _ => true, startResult := .ok sampleRunning } rfl
  have hrun := c5_router_dispatch [("app.local", sampleRunning)] "app.local" 9
    { rateAdmit := true, alive := fun _ => true, startResult := .ok sampleRunning } rfl
  have hfwd := hrun.2.2 sampleRunning (by decide) (Or.inl rfl) (by decide)
  exact ⟨hdead.1 sampleRunning (by decide) (by decide) rfl,
    (habsent.2.1 (Or.inl rfl)).1, hfwd.1, hfwd.2.2⟩

/-- C7 (code bug): a rate-admitted request to the project domain `"app.local"`
with no live record, whose triggered start fails, has already been answered
with the complete 200 interim loading page (proxy.js line 331) before
`startDevServer` is awaited; the catch block's 503 write (lines 346-357) is
attempted on the ended response — so the client receives the 200 loading page
and never the 503 the claim promises. -/
theorem c7_start_failure_no_503 :
    (handleProjectRequest [] "app.local" 0
        { rateAdmit := true, alive := fun _ => true,
          startResult := .error (.failedToStart .timeoutWaiting) }).1.received =
      some (200, .loadingPage) ∧
    (503, RsEvent.startFailedPage) ∈
      (handleProjectRequest [] "app.local" 0
        { rateAdmit := true, alive := fun _ => true,
          startResult := .error (.failedToStart .timeoutWaiting) }).1.sent ∧
    (handleProjectRequest [] "app.local" 0
        { rateAdmit := true, alive := fun _ => true,
          startResult := .error (.failedToStart .timeoutWaiting) }).1.writeAfterEnd = true ∧
    (handleProjectRequest [] "app.local" 0
        { rateAdmit := true, alive := fun _ => true,
          startResult := .error (.failedToStart .timeoutWaiting) }).1.received ≠
      some (503, .startFailedPage) := by
  refine ⟨rfl, ?_, rfl, by decide⟩
  decide

/-! ## Idle reaper (process-manager.js lines 543-588) -/

/-- The fallback idle timeout in ms (process-manager.js line 562). -/
def defaultIdleTimeoutMs : Nat := 300000

/-- The effective idle timeout of a project:
`project.config.idle?.timeoutMs || 300000` (process-manager.js line 562).
The JS `||` falls back to the default both when the field is absent and when
it is configured as 0 (a falsy value). -/
def effectiveIdleTimeout (proj : Project) : Nat :=
  match proj.idleTimeoutMs with
  | some t => if t = 0 then defaultIdleTimeoutMs else t
  | none => defaultIdleTimeoutMs

/-- The loop body of `checkIdleProcesses` for one table entry
(process-manager.js lines 546-574): skip manual-mode records (548-550), skip
records whose state is not RUNNING (553-555), skip domains with no registered
project (557-560), and otherwise call `stopDevServer(domain)` — graceful,
`force` defaulted to false — exactly when `now - lastAccess` strictly exceeds
the effective idle timeout (566-573). -/
def idleCheckOne (projects : String → Option Project) (now : Nat)
    (e : String × ProcessRecord) : Option (String × Bool) :=
  if e.2.mode = .manual then none
  else if e.2.state ≠ .running then none
  else
    match projects e.1 with
    | none => none
    | some proj =>
      if effectiveIdleTimeout proj < now - e.2.lastAccess then some (e.1, false)
      else none

/-- `checkIdleProcesses` (process-manager.js lines 543-575): one sweep over
every live record, returning the `stopDevServer` calls made, in iteration
order, as `(domain, force)` pairs.  The model is a total function — matching
the source, where `stopDevServer` always resolves and the loop body cannot
throw — so a stop on one domain never aborts the sweep for the remaining
domains. -/
def checkIdleProcesses (table : Table) (projects : String → Option Project)
    (now : Nat) : List (String × Bool) :=
  table.filterMap (idleCheckOne projects now)

theorem idleCheckOne_eq_some (projects : String → Option Project) (now : Nat)
    (e : String × ProcessRecord) (x : String × Bool) :
    idleCheckOne projects now e = some x ↔
      x = (e.1, false) ∧ e.2.mode ≠ .manual ∧ e.2.state = .running ∧
      ∃ proj, projects e.1 = some proj ∧
        effectiveIdleTimeout proj < now - e.2.lastAccess := by
  unfold idleCheckOne
  by_cases h1 : e.2.mode = .manual
  · simp [h1]
  · by_cases h2 : e.2.state = .running
    · rcases hp : projects e.1 with _ | proj
      · simp [h1, h2, hp]
      · by_cases h3 : effectiveIdleTimeout proj < now - e.2.lastAccess
        · simp [h1, h2, hp, h3, eq_comm]
        · simp [h1, h2, hp, h3]
    · simp [h1, h2]

/-- C6 counterexample: a project may configure `idle.timeoutMs = 0`
(project-config validation only requires the value to be a non-negative
number), but `project.config.idle?.timeoutMs || 300000` (process-manager.js
line 562) treats the falsy 0 as absent and uses 300000 instead: a managed
RUNNING record of `"app.local"` idle for 1000 ms — which strictly exceeds the
project's configured `idleTimeoutMs` of 0 — is not stopped by the sweep,
refuting "calls graceful stop exactly on those domains whose now - lastAccess
exceeds the owning project's idleTimeoutMs". -/
theorem c6_counterexample :
    checkIdleProcesses [("app.local", sampleRunning)]
      (fun _ => some { portSpec := .auto, idleTimeoutMs := some 0 }) 1000 = [] ∧
    1000 - sampleRunning.lastAccess > 0 := by
  constructor
  · rfl
  · decide

/-- C6 (amended): one idle sweep emits only graceful stops (`force = false`);
a graceful stop is issued for a domain exactly when the table holds a record
for it that is not in manual mode, is in state RUNNING, belongs to a
registered project, and has been idle strictly longer than the project's
effective idle timeout — `idle.timeoutMs` with both an absent and a
configured-zero value falling back to the default 300000 ms; consequently a
record in manual mode is never stopped regardless of elapsed idle time; and
the sweep processes every record: its output over a concatenation of records
is the concatenation of its outputs, so the fate of earlier records never
aborts the sweep for the remaining ones. -/
theorem c6_idle_sweep (table : Table) (projects : String → Option Project)
    (now : Nat) :
    (∀ x ∈ checkIdleProcesses table projects now, x.2 = false) ∧
    (∀ domain, (domain, false) ∈ checkIdleProcesses table projects now ↔
      ∃ r, (domain, r) ∈ table ∧ r.mode ≠ .manual ∧ r.state = .running ∧
        ∃ proj, projects domain = some proj ∧
          effectiveIdleTimeout proj < now - r.lastAccess) ∧
    (∀ domain, (∀ r, (domain, r) ∈ table → r.mode = .manual) →
      ∀ b, (domain, b) ∉ checkIdleProcesses table projects now) ∧
    (∀ t1 t2 : Table, checkIdleProcesses (t1 ++ t2) projects now =
      checkIdleProcesses t1 projects now ++ checkIdleProcesses t2 projects now) := by
  refine ⟨?_, ?_, ?_, ?_⟩
  · intro x hx
    rw [checkIdleProcesses, List.mem_filterMap] at hx
    obtain ⟨e, _, he⟩ := hx
    rw [idleCheckOne_eq_some] at he
    rw [he.1]
  · intro domain
    rw [checkIdleProcesses, List.mem_filterMap]
    constructor
    · rintro ⟨e, hmem, he⟩
      rw [idleCheckOne_eq_some] at he
      obtain ⟨hx, hm, hs, proj, hp, ht⟩ := he
      have he1 : e.1 = domain := by
        have := congrArg Prod.fst hx
        simpa using this.symm
      refine ⟨e.2, ?_, hm, hs, proj, ?_, ht⟩
      · rw [← he1]; exact hmem
      · rw [← he1]; exact hp
    · rintro ⟨r, hmem, hm, hs, proj, hp, ht⟩
      refine ⟨(domain, r), hmem, ?_⟩
      rw [idleCheckOne_eq_some]
      exact ⟨rfl, hm, hs, proj, hp, ht⟩
  · intro domain hall b hmem
    rw [checkIdleProcesses, List.mem_filterMap] at hmem
    obtain ⟨e, hmem2, he⟩ := hmem
    rw [idleCheckOne_eq_some] at he
    obtain ⟨hx, hm, _⟩ := he
    have he1 : e.1 = domain := by
      have := congrArg Prod.fst hx
      simpa using this.symm
    apply hm
    apply hall e.2
    rw [← he1]
    exact hmem2
  · intro t1 t2
    simp [checkIdleProcesses]

/-- C6 witness: a sweep at `now = 400000` over a manual-mode record idle for
400000 ms, a RUNNING managed record idle for 400000 ms, and a RUNNING managed
record idle for 1000 ms, all owned by default-timeout projects, stops exactly
the long-idle managed record, gracefully. -/
theorem c6_idle_sweep_witness :
    checkIdleProcesses
      [("man.local", { sampleRunning with mode := .manual, state := .manual }),
       ("idle.local", sampleRunning),
       ("fresh.local", { sampleRunning with lastAccess := 399000 })]
      (fun _ => some sampleProject) 400000 = [("idle.local", false)] ∧
    ("man.local", false) ∉
      checkIdleProcesses
        [("man.local", { sampleRunning with mode := .manual, state := .manual }),
         ("idle.local", sampleRunning),
         ("fresh.local", { sampleRunning with lastAccess := 399000 })]
        (fun _ => some sampleProject) 400000 := by
  have h := c6_idle_sweep
    [("man.local", { sampleRunning with mode := .manual, state := .manual }),
     ("idle.local", sampleRunning),
     ("fresh.local", { sampleRunning with lastAccess := 399000 })]
    (fun _ => some sampleProject) 400000
  refine ⟨by rfl, ?_⟩
  apply h.2.2.1 "man.local"
  intro r hr
  rcases List.mem_cons.mp hr with h1 | hr2
  · rw [Prod.mk.injEq] at h1
    rw [h1.2]
  · rcases List.mem_cons.mp hr2 with h1 | hr3
    · rw [Prod.mk.injEq] at h1
      exact absurd h1.1 (by decide)
    · rcases List.mem_cons.mp hr3 with h1 | hr4
      · rw [Prod.mk.injEq] at h1
        exact absurd h1.1 (by decide)
      · simp at hr4

/-! ## Concurrent first-access start race (C1)

Node.js runs each handler callback synchronously until its next `await`.
Inside `startDevServer` the already-running guard (process-manager.js lines
277-282) executes in the synchronous prefix of the call, while the STARTING
record is only inserted at line 396 — after the call has suspended at
`await allocatePort(...)` (line 285, whose `isPortAvailable` always yields to
the event loop) and again at `await new Promise(setImmediate)` (line 372).
A second `startDevServer` call scheduled during either suspension therefore
runs its own guard against a table that does not yet contain the first call's
record.  The model below cuts each call into its run-to-suspension segments
and lets an explicit schedule interleave two calls for the same domain. -/

/-- Progress of one in-flight `startDevServer` call:
`atGuard` — about to run the synchronous prefix ending in the already-running
check (lines 269-282), then suspend at `await allocatePort`;
`atSpawn` — resumed after the awaits, about to allocate the port, spawn the
child and insert the STARTING record (lines 285-396);
`failed` — the guard threw the already-active error;
`done` — the STARTING record is inserted and a child process is live. -/
inductive ThreadPhase
  | atGuard
  | atSpawn
  | failed
  | done
deriving DecidableEq

/-- Shared state of the race: the process table and the number of child
processes spawned (and still live) for the contested domain. -/
structure RaceState where
  table : Table
  spawned : Nat
  a : ThreadPhase
  b : ThreadPhase
deriving DecidableEq

/-- Run one thread's next segment against the shared state. -/
def raceStepPhase (domain : String) (pid : Nat) (st : Table × Nat)
    (ph : ThreadPhase) : (Table × Nat) × ThreadPhase :=
  match ph with
  | .atGuard =>
    match startGuard st.1 domain with
    | some _ => (st, .failed)
    | none => (st, .atSpawn)
  | .atSpawn =>
    ((st.1.set domain
        { pid := pid, port := 3000, state := .starting, mode := .managed,
          lastAccess := 0 },
      st.2 + 1), .done)
  | ph => (st, ph)

/-- Run one scheduling step: `true` advances call A (child pid 7), `false`
advances call B (child pid 8). -/
def raceStep (domain : String) (s : RaceState) (runA : Bool) : RaceState :=
  if runA then
    let res := raceStepPhase domain 7 (s.table, s.spawned) s.a
    { table := res.1.1, spawned := res.1.2, a := res.2, b := s.b }
  else
    let res := raceStepPhase domain 8 (s.table, s.spawned) s.b
    { table := res.1.1, spawned := res.1.2, a := s.a, b := res.2 }

/-- Run a schedule of two concurrent `startDevServer` calls for `domain`. -/
def raceRun (domain : String) (sched : List Bool) (s : RaceState) : RaceState :=
  sched.foldl (raceStep domain) s

/-- C1 (code bug): two near-simultaneous start triggers for the unstarted
domain `"app.local"`, scheduled as the Node event loop does when both arrive
in the same tick — both guards run before either call resumes past its
`await` — both pass the already-running check and both spawn: two live
processes for one domain, neither trigger coalesced nor rejected.  By
contrast, the sequential schedule in which the first call inserts its
STARTING record before the second call's guard runs does reject the second
trigger with the already-active error and spawns only once — the guard works,
but only when the STARTING record is already in the table; nothing serializes
the window between check and insert. -/
theorem c1_concurrent_start_race :
    (raceRun "app.local" [true, false, true, false]
        { table := [], spawned := 0, a := .atGuard, b := .atGuard }).spawned = 2 ∧
    (raceRun "app.local" [true, false, true, false]
        { table := [], spawned := 0, a := .atGuard, b := .atGuard }).a = .done ∧
    (raceRun "app.local" [true, false, true, false]
        { table := [], spawned := 0, a := .atGuard, b := .atGuard }).b = .done ∧
    (raceRun "app.local" [true, true, false]
        { table := [], spawned := 0, a := .atGuard, b := .atGuard }).spawned = 1 ∧
    (raceRun "app.local" [true, true, false]
        { table := [], spawned := 0, a := .atGuard, b := .atGuard }).b = .failed := by
  refine ⟨rfl, rfl, rfl, rfl, rfl⟩
